/-
Verification of the double-entry ledger subsystem
(backend/app/services/accounting_service.py and coa_service.py).

The embedding models the SQLAlchemy-backed services as pure functions over an
explicit `Store` record.  Decimal amounts ("fixed-point decimal currency")
become integer counts of the smallest currency unit — the source only adds,
subtracts and compares amounts, never divides or rescales, and these
operations commute with the fixed-point scaling.  Dates become a
(year, day-of-year) pair ordered lexicographically, UUIDs become naturals
allocated from a counter, and each `async` service method becomes a function
`args → Store → Except String (result × Store)` whose error strings mirror the
ValueError messages of the source.
-/

import Mathlib

namespace Ledger

/-- A calendar date: the year together with the ordinal of the day inside the
year.  Real dates compare lexicographically on these two components, and
`entry_date.year` in the source is the first component. -/
structure SDate where
  year : Nat
  doy : Nat
deriving DecidableEq, Repr

/-- Date comparison `a <= b`, lexicographic on (year, day of year). -/
def dle (a b : SDate) : Bool :=
  a.year < b.year || (a.year == b.year && a.doy ≤ b.doy)

/-- One node of the Chart of Accounts (table `accounts`). -/
structure Account where
  id : Nat
  organization_id : Nat
  parent_id : Option Nat
  code : String
  name : String
  account_type : String
  sub_type : Option String
  is_system : Bool
  is_active : Bool
deriving DecidableEq, Repr

/-- One journal entry header (table `journal_entries`). -/
structure JournalEntry where
  id : Nat
  organization_id : Nat
  entry_date : SDate
  reference : Option String
  description : String
  source : String
  source_id : Option Nat
  status : String
  fiscal_year : Nat
  reversed_by : Option Nat
deriving DecidableEq, Repr

/-- One debit/credit line (table `journal_lines`). -/
structure JournalLine where
  entry_id : Nat
  account_id : Nat
  debit : ℤ
  credit : ℤ
  description : Option String
deriving DecidableEq, Repr

/-- Per-org, per-year lock row (table `financial_years`). -/
structure FYearRow where
  organization_id : Nat
  year : Nat
  is_locked : Bool
  locked_by : Option Nat
deriving DecidableEq, Repr

/-- The durable database state.  Lists keep insertion order (`created_at`
order in the source); `nextId` models the id generator. -/
structure Store where
  accounts : List Account
  entries : List JournalEntry
  lines : List JournalLine
  fyears : List FYearRow
  nextId : Nat
deriving DecidableEq, Repr

/-- Caller-facing line specification (class `LineSpec`). -/
structure LineSpec where
  account_id : Nat
  debit : ℤ
  credit : ℤ
  description : Option String
deriving DecidableEq, Repr

/-- `LineSpec.__init__`: raises ValueError ("Exactly one of debit/credit must
be positive") when `(debit > 0 and credit > 0) or (debit == 0 and credit == 0)`;
otherwise stores the fields. -/
def mkLineSpec (account_id : Nat) (debit credit : ℤ) (description : Option String) :
    Option LineSpec :=
  if (0 < debit ∧ 0 < credit) ∨ (debit = 0 ∧ credit = 0) then none
  else some ⟨account_id, debit, credit, description⟩

/-- `AccountingService._assert_year_open`: true when a FinancialYear row for
this org and year exists with `is_locked == True`. -/
def yearLockedB (org year : Nat) (st : Store) : Bool :=
  st.fyears.any fun fy =>
    fy.organization_id == org && fy.year == year && fy.is_locked

/-- `AccountingService._validate_accounts`: the source selects the ids of the
active accounts of the org among the referenced ids and raises when the set
difference is nonempty, i.e. succeeds exactly when every referenced account id
belongs to an active account of the org. -/
def accountsValidB (org : Nat) (lines : List LineSpec) (st : Store) : Bool :=
  lines.all fun l =>
    st.accounts.any fun a =>
      a.id == l.account_id && a.organization_id == org && a.is_active

/-- `AccountingService.post_journal_entry`.  Validation order follows the
source: balance, non-zero total, year lock, account validation; then the
header and its lines are inserted and committed. -/
def post_journal_entry (org : Nat) (entry_date : SDate) (description : String)
    (lines : List LineSpec) (reference : Option String) (source : String)
    (source_id : Option Nat) (st : Store) :
    Except String (JournalEntry × Store) :=
  let total_debit : ℤ := (lines.map (·.debit)).sum
  let total_credit : ℤ := (lines.map (·.credit)).sum
  if total_debit ≠ total_credit then
    .error "Journal entry not balanced"
  else if total_debit = 0 then
    .error "Journal entry must have non-zero amounts"
  else if yearLockedB org entry_date.year st then
    .error "Financial year is locked. No new postings allowed."
  else if !accountsValidB org lines st then
    .error "Accounts not found in this organisation"
  else
    let entry : JournalEntry :=
      { id := st.nextId, organization_id := org, entry_date := entry_date
        reference := reference, description := description, source := source
        source_id := source_id, status := "posted"
        fiscal_year := entry_date.year, reversed_by := none }
    let newLines : List JournalLine := lines.map fun s =>
      { entry_id := entry.id, account_id := s.account_id, debit := s.debit
        credit := s.credit, description := s.description }
    .ok (entry,
      { st with entries := st.entries ++ [entry]
                lines := st.lines ++ newLines
                nextId := st.nextId + 1 })

/-- The reversal line specs built inside `void_entry`: each original line has
its debit and credit swapped and goes through the `LineSpec` constructor,
whose ValueError propagates (modelled as `none`). -/
def mkReversalSpecs : List JournalLine → Option (List LineSpec)
  | [] => some []
  | l :: ls => do
    let s ← mkLineSpec l.account_id l.credit l.debit
      (some ("Reversal of " ++ l.description.getD "entry"))
    let rest ← mkReversalSpecs ls
    pure (s :: rest)

/-- First stage of `void_entry`, up to and including the commit issued inside
the nested `post_journal_entry` call (source line 148).  Returns the original
entry, the reversal entry and the store as committed by that first commit,
before the original is marked voided. -/
def voidStage1 (org : Nat) (today : SDate) (entry_id : Nat) (st : Store) :
    Except String (JournalEntry × JournalEntry × Store) :=
  match st.entries.find? (fun e => e.id == entry_id && e.organization_id == org) with
  | none => .error "Journal entry not found"
  | some original =>
    if original.status ≠ "posted" then
      .error "Cannot void entry with this status"
    else
      match mkReversalSpecs (st.lines.filter (fun l => l.entry_id == original.id)) with
      | none => .error "Exactly one of debit/credit must be positive"
      | some rspecs =>
        match post_journal_entry org today ("REVERSAL: " ++ original.description)
            rspecs original.reference "void" (some original.id) st with
        | .error msg => .error msg
        | .ok (reversal, st1) => .ok (original, reversal, st1)

/-- `AccountingService.void_entry`: stage 1 above, then the original entry is
marked `voided` with `reversed_by` pointing at the reversal, and a second
commit is issued (source line 207). -/
def void_entry (org : Nat) (today : SDate) (entry_id : Nat) (st : Store) :
    Except String (JournalEntry × Store) :=
  match voidStage1 org today entry_id st with
  | .error msg => .error msg
  | .ok (original, reversal, st1) =>
    .ok (reversal,
      { st1 with entries := st1.entries.map fun e =>
          if e.id == original.id then
            { e with status := "voided", reversed_by := some reversal.id }
          else e })

/-- One row of the trial-balance report (per-account aggregation). -/
structure TBRow where
  account_id : Nat
  code : String
  total_debit : ℤ
  total_credit : ℤ
  net_balance : ℤ
deriving DecidableEq, Repr

/-- The trial-balance report. -/
structure TrialBalance where
  accounts : List TBRow
  grand_total_debit : ℤ
  grand_total_credit : ℤ
  is_balanced : Bool
deriving DecidableEq, Repr

/-- The rows produced for one account by the join in `get_trial_balance`:
`accounts LEFT OUTER JOIN journal_lines ON journal_lines.account_id =
accounts.id LEFT OUTER JOIN journal_entries ON journal_entries.id =
journal_lines.entry_id AND status = posted AND entry_date <= asOf AND
organization_id = org`.  Because the entry conditions sit in the ON clause of
an outer join, every line row survives exactly once — with its entry when the
conditions match and with a NULL entry otherwise. -/
def tbJoinRows (org : Nat) (asOf : SDate) (st : Store) (a : Account) :
    List (JournalLine × Option JournalEntry) :=
  (st.lines.filter (fun l => l.account_id == a.id)).map fun l =>
    (l, st.entries.find? fun e =>
      e.id == l.entry_id && e.status == "posted" &&
      dle e.entry_date asOf && e.organization_id == org)

/-- `AccountingService.get_trial_balance`: per active account of the org, sum
the debit and credit columns of the joined line rows (the source orders the
rows by account code; ordering is presentational and not modelled). -/
def get_trial_balance (org : Nat) (asOf : SDate) (st : Store) : TrialBalance :=
  let rows := (st.accounts.filter fun a =>
      a.organization_id == org && a.is_active).map fun a =>
    let jr := tbJoinRows org asOf st a
    let dr : ℤ := (jr.map (fun p => p.1.debit)).sum
    let cr : ℤ := (jr.map (fun p => p.1.credit)).sum
    { account_id := a.id, code := a.code, total_debit := dr, total_credit := cr
      net_balance := dr - cr : TBRow }
  let gd : ℤ := (rows.map (·.total_debit)).sum
  let gc : ℤ := (rows.map (·.total_credit)).sum
  { accounts := rows, grand_total_debit := gd, grand_total_credit := gc
    is_balanced := decide (gd = gc) }

/-- Modelled from the spec (for comparison with the code): the per-account
debit total of the trial balance is the sum of debit over journal lines of
this account whose parent entry is posted, dated at most asOf and belongs to
the tenant; all other lines contribute nothing. -/
def trialBalanceSpecDebit (org : Nat) (asOf : SDate) (st : Store) (aid : Nat) : ℤ :=
  ((st.lines.filter fun l =>
      l.account_id == aid && st.entries.any fun e =>
        e.id == l.entry_id && e.status == "posted" &&
        dle e.entry_date asOf && e.organization_id == org).map (·.debit)).sum

/-- Modelled from the spec: credit counterpart of `trialBalanceSpecDebit`. -/
def trialBalanceSpecCredit (org : Nat) (asOf : SDate) (st : Store) (aid : Nat) : ℤ :=
  ((st.lines.filter fun l =>
      l.account_id == aid && st.entries.any fun e =>
        e.id == l.entry_id && e.status == "posted" &&
        dle e.entry_date asOf && e.organization_id == org).map (·.credit)).sum

/-- One displayed general-ledger row. -/
structure GLRow where
  entry_id : Nat
  entry_date : SDate
  debit : ℤ
  credit : ℤ
  balance : ℤ
deriving DecidableEq, Repr

/-- The general-ledger report for one account. -/
structure GLReport where
  account_id : Nat
  rows : List GLRow
  closing_balance : ℤ
deriving DecidableEq, Repr

/-- Stable insertion of a (line, entry) pair into a list sorted by entry date:
the pair goes after every pair whose date is at most its own, so rows with
equal dates keep creation order, matching `ORDER BY entry_date, created_at`. -/
def glInsert (x : JournalLine × JournalEntry) :
    List (JournalLine × JournalEntry) → List (JournalLine × JournalEntry)
  | [] => [x]
  | y :: ys => if dle y.2.entry_date x.2.entry_date then y :: glInsert x ys
               else x :: y :: ys

/-- Stable sort by entry date (creation order is the store order). -/
def glSort (rows : List (JournalLine × JournalEntry)) :
    List (JournalLine × JournalEntry) :=
  rows.foldl (fun acc x => glInsert x acc) []

/-- `AccountingService.get_general_ledger`: the posted lines of one account of
the org, optionally bounded by from/to dates, ordered by (entry date, creation
order), annotated with a running balance that starts at zero; the closing
balance is the final running balance. -/
def get_general_ledger (org : Nat) (account_id : Nat)
    (fromDate toDate : Option SDate) (st : Store) : Except String GLReport :=
  match st.accounts.find? (fun a => a.id == account_id) with
  | none => .error "Account not found"
  | some account =>
    if account.organization_id ≠ org then .error "Account not found"
    else
      let pairs := (st.lines.filter (fun l => l.account_id == account_id)).filterMap
        fun l =>
          match st.entries.find? (fun e =>
              e.id == l.entry_id && e.organization_id == org &&
              e.status == "posted" &&
              (match fromDate with | none => true | some f => dle f e.entry_date) &&
              (match toDate with | none => true | some t => dle e.entry_date t)) with
          | none => none
          | some e => some (l, e)
      let sorted := glSort pairs
      let step := fun (acc : ℤ × List GLRow) (p : JournalLine × JournalEntry) =>
        let bal := acc.1 + (p.1.debit - p.1.credit)
        (bal, acc.2 ++ [{ entry_id := p.2.id, entry_date := p.2.entry_date
                          debit := p.1.debit, credit := p.1.credit
                          balance := bal : GLRow }])
      let out := sorted.foldl step ((0 : ℤ), [])
      .ok { account_id := account.id, rows := out.2, closing_balance := out.1 }

/-- `AccountingService.lock_financial_year`: loads the (org, year) row,
creating it when absent (freshly created rows are unlocked); errors when it is
already locked, otherwise sets the lock.  The identity-based row update of the
ORM is modelled as an update of every key-matching row; the database enforces
at most one row per (org, year). -/
def lock_financial_year (org year : Nat) (locked_by : Option Nat) (st : Store) :
    Except String (FYearRow × Store) :=
  match st.fyears.find? (fun fy => fy.organization_id == org && fy.year == year) with
  | none =>
    let fy : FYearRow := { organization_id := org, year := year
                           is_locked := true, locked_by := locked_by }
    .ok (fy, { st with fyears := st.fyears ++ [fy] })
  | some fy =>
    if fy.is_locked then .error "Financial year is already locked"
    else
      let fy' := { fy with is_locked := true, locked_by := locked_by }
      .ok (fy', { st with fyears := st.fyears.map fun r =>
        if r.organization_id == org && r.year == year then
          { r with is_locked := true, locked_by := locked_by }
        else r })

/-- `CoAService.deactivate_account`: `db.get` by primary key, tenant check,
system check, then `is_active = False` (no check that the account is still
active). -/
def deactivate_account (org : Nat) (account_id : Nat) (st : Store) :
    Except String (Account × Store) :=
  match st.accounts.find? (fun a => a.id == account_id) with
  | none => .error "Account not found"
  | some acct =>
    if acct.organization_id ≠ org then .error "Account not found"
    else if acct.is_system then .error "System accounts cannot be deactivated"
    else
      let acct' := { acct with is_active := false }
      .ok (acct', { st with accounts := st.accounts.map fun a =>
        if a.id == account_id then { a with is_active := false } else a })

/-- One row of the default chart-of-accounts catalog (`DEFAULT_ACCOUNTS`).
Every row of the source catalog has `is_system: True`, so the flag is not
repeated here. -/
structure DefaultSpec where
  code : String
  dname : String
  acct_type : String
  sub_type : String
  parent_code : Option String
deriving DecidableEq, Repr

/-- The default system-account catalog of `coa_service.py`. -/
def DEFAULT_ACCOUNTS : List DefaultSpec := [
  ⟨"1000", "Assets", "asset", "current_asset", none⟩,
  ⟨"1010", "Cash in Hand", "asset", "bank_cash", some "1000"⟩,
  ⟨"1020", "Bank Accounts", "asset", "bank_cash", some "1000"⟩,
  ⟨"1100", "Accounts Receivable", "asset", "current_asset", some "1000"⟩,
  ⟨"1200", "Inventory", "asset", "current_asset", some "1000"⟩,
  ⟨"1300", "Prepaid Expenses", "asset", "current_asset", some "1000"⟩,
  ⟨"1500", "Fixed Assets", "asset", "non_current_asset", some "1000"⟩,
  ⟨"1510", "Accumulated Depreciation", "asset", "non_current_asset", some "1500"⟩,
  ⟨"2000", "Liabilities", "liability", "current_liability", none⟩,
  ⟨"2010", "Accounts Payable", "liability", "current_liability", some "2000"⟩,
  ⟨"2100", "GST Payable", "liability", "current_liability", some "2000"⟩,
  ⟨"2110", "CGST Payable", "liability", "current_liability", some "2100"⟩,
  ⟨"2120", "SGST Payable", "liability", "current_liability", some "2100"⟩,
  ⟨"2130", "IGST Payable", "liability", "current_liability", some "2100"⟩,
  ⟨"2200", "Short-term Borrowings", "liability", "current_liability", some "2000"⟩,
  ⟨"2500", "Long-term Borrowings", "liability", "non_current_liability", some "2000"⟩,
  ⟨"3000", "Equity", "equity", "equity", none⟩,
  ⟨"3010", "Share Capital", "equity", "equity", some "3000"⟩,
  ⟨"3020", "Retained Earnings", "equity", "equity", some "3000"⟩,
  ⟨"4000", "Revenue from Operations", "income", "revenue", none⟩,
  ⟨"4010", "Service Revenue", "income", "revenue", some "4000"⟩,
  ⟨"4020", "Product Sales", "income", "revenue", some "4000"⟩,
  ⟨"4100", "Other Income", "income", "other_income", some "4000"⟩,
  ⟨"5000", "Expenses", "expense", "other_expense", none⟩,
  ⟨"5010", "Cost of Goods Sold", "expense", "cogs", some "5000"⟩,
  ⟨"5100", "Employee Benefit Expense", "expense", "employee_expense", some "5000"⟩,
  ⟨"5200", "Depreciation & Amortisation", "expense", "depreciation", some "5000"⟩,
  ⟨"5300", "Finance Costs", "expense", "finance_cost", some "5000"⟩,
  ⟨"5400", "Other Expenses", "expense", "other_expense", some "5000"⟩,
  ⟨"5410", "Rent", "expense", "other_expense", some "5400"⟩,
  ⟨"5420", "Utilities", "expense", "other_expense", some "5400"⟩,
  ⟨"5430", "Marketing & Advertising", "expense", "other_expense", some "5400"⟩,
  ⟨"5440", "Travel & Conveyance", "expense", "other_expense", some "5400"⟩]

/-- First pass of `seed_default_accounts`: root catalog rows (no parent code)
are created when their code is not among the pre-fetched existing codes, and
otherwise fetched (`scalar_one`, which raises when the row is missing).  The
mutable dict `code_to_id` is modelled as an association list consulted with
first-match lookup (entries are prepended, each code is assigned once). -/
def seedPass1 (org : Nat) (existing : List String)
    (acc : List (String × Nat) × Store) (spec : DefaultSpec) :
    Except String (List (String × Nat) × Store) :=
  match spec.parent_code with
  | some _ => .ok acc
  | none =>
    if !(existing.contains spec.code) then
      let a : Account :=
        { id := acc.2.nextId, organization_id := org, parent_id := none
          code := spec.code, name := spec.dname, account_type := spec.acct_type
          sub_type := some spec.sub_type, is_system := true, is_active := true }
      .ok ((spec.code, a.id) :: acc.1,
           { acc.2 with accounts := acc.2.accounts ++ [a]
                        nextId := acc.2.nextId + 1 })
    else
      match acc.2.accounts.find? (fun a =>
          a.organization_id == org && a.code == spec.code) with
      | some a => .ok ((spec.code, a.id) :: acc.1, acc.2)
      | none => .error "scalar_one found no row"

/-- Second pass of `seed_default_accounts`: child catalog rows.  New children
resolve their parent through `code_to_id` with a database fallback
(`scalar_one_or_none`); already existing children are fetched into
`code_to_id`. -/
def seedPass2 (org : Nat) (existing : List String)
    (acc : List (String × Nat) × Store) (spec : DefaultSpec) :
    Except String (List (String × Nat) × Store) :=
  match spec.parent_code with
  | none => .ok acc
  | some pc =>
    if !(existing.contains spec.code) then
      let parent_id : Option Nat :=
        match acc.1.find? (fun p => p.1 == pc) with
        | some p => some p.2
        | none => (acc.2.accounts.find? (fun a =>
            a.organization_id == org && a.code == pc)).map (·.id)
      let a : Account :=
        { id := acc.2.nextId, organization_id := org, parent_id := parent_id
          code := spec.code, name := spec.dname, account_type := spec.acct_type
          sub_type := some spec.sub_type, is_system := true, is_active := true }
      .ok ((spec.code, a.id) :: acc.1,
           { acc.2 with accounts := acc.2.accounts ++ [a]
                        nextId := acc.2.nextId + 1 })
    else
      match acc.2.accounts.find? (fun a =>
          a.organization_id == org && a.code == spec.code) with
      | some a => .ok ((spec.code, a.id) :: acc.1, acc.2)
      | none => .error "scalar_one found no row"

/-- The two catalog walks of `seed_default_accounts`, with the pre-fetched
existing codes as a parameter: roots first, children second. -/
def seedRun (org : Nat) (existing : List String) (st : Store) :
    Except String Store := do
  let s1 ← DEFAULT_ACCOUNTS.foldlM (seedPass1 org existing) ([], st)
  let s2 ← DEFAULT_ACCOUNTS.foldlM (seedPass2 org existing) s1
  pure s2.2

/-- `CoAService.seed_default_accounts`: the existing codes of the org are
fetched once, then the catalog is walked twice — roots first, children
second — and the result is committed. -/
def seed_default_accounts (org : Nat) (st : Store) : Except String Store :=
  seedRun org
    ((st.accounts.filter (fun a => a.organization_id == org)).map (·.code)) st

/-- The empty database state of a fresh tenant. -/
def emptyStore : Store := ⟨[], [], [], [], 0⟩

/-- Replace the organization field of an account. -/
def setOrgAccount (org : Nat) (a : Account) : Account :=
  { a with organization_id := org }

/-- The 33 accounts created by the first `seed_default_accounts` call on an
empty store, with a placeholder organization id 0: roots get ids 0-4 (first
pass, catalog order), children get ids 5-32 (second pass, catalog order) with
parent ids resolved through the code-to-id dictionary. -/
def firstSeedTemplate : List Account := [
  ⟨0, 0, none, "1000", "Assets", "asset", some "current_asset", true, true⟩,
  ⟨1, 0, none, "2000", "Liabilities", "liability", some "current_liability", true, true⟩,
  ⟨2, 0, none, "3000", "Equity", "equity", some "equity", true, true⟩,
  ⟨3, 0, none, "4000", "Revenue from Operations", "income", some "revenue", true, true⟩,
  ⟨4, 0, none, "5000", "Expenses", "expense", some "other_expense", true, true⟩,
  ⟨5, 0, some 0, "1010", "Cash in Hand", "asset", some "bank_cash", true, true⟩,
  ⟨6, 0, some 0, "1020", "Bank Accounts", "asset", some "bank_cash", true, true⟩,
  ⟨7, 0, some 0, "1100", "Accounts Receivable", "asset", some "current_asset", true, true⟩,
  ⟨8, 0, some 0, "1200", "Inventory", "asset", some "current_asset", true, true⟩,
  ⟨9, 0, some 0, "1300", "Prepaid Expenses", "asset", some "current_asset", true, true⟩,
  ⟨10, 0, some 0, "1500", "Fixed Assets", "asset", some "non_current_asset", true, true⟩,
  ⟨11, 0, some 10, "1510", "Accumulated Depreciation", "asset", some "non_current_asset", true, true⟩,
  ⟨12, 0, some 1, "2010", "Accounts Payable", "liability", some "current_liability", true, true⟩,
  ⟨13, 0, some 1, "2100", "GST Payable", "liability", some "current_liability", true, true⟩,
  ⟨14, 0, some 13, "2110", "CGST Payable", "liability", some "current_liability", true, true⟩,
  ⟨15, 0, some 13, "2120", "SGST Payable", "liability", some "current_liability", true, true⟩,
  ⟨16, 0, some 13, "2130", "IGST Payable", "liability", some "current_liability", true, true⟩,
  ⟨17, 0, some 1, "2200", "Short-term Borrowings", "liability", some "current_liability", true, true⟩,
  ⟨18, 0, some 1, "2500", "Long-term Borrowings", "liability", some "non_current_liability", true, true⟩,
  ⟨19, 0, some 2, "3010", "Share Capital", "equity", some "equity", true, true⟩,
  ⟨20, 0, some 2, "3020", "Retained Earnings", "equity", some "equity", true, true⟩,
  ⟨21, 0, some 3, "4010", "Service Revenue", "income", some "revenue", true, true⟩,
  ⟨22, 0, some 3, "4020", "Product Sales", "income", some "revenue", true, true⟩,
  ⟨23, 0, some 3, "4100", "Other Income", "income", some "other_income", true, true⟩,
  ⟨24, 0, some 4, "5010", "Cost of Goods Sold", "expense", some "cogs", true, true⟩,
  ⟨25, 0, some 4, "5100", "Employee Benefit Expense", "expense", some "employee_expense", true, true⟩,
  ⟨26, 0, some 4, "5200", "Depreciation & Amortisation", "expense", some "depreciation", true, true⟩,
  ⟨27, 0, some 4, "5300", "Finance Costs", "expense", some "finance_cost", true, true⟩,
  ⟨28, 0, some 4, "5400", "Other Expenses", "expense", some "other_expense", true, true⟩,
  ⟨29, 0, some 28, "5410", "Rent", "expense", some "other_expense", true, true⟩,
  ⟨30, 0, some 28, "5420", "Utilities", "expense", some "other_expense", true, true⟩,
  ⟨31, 0, some 28, "5430", "Marketing & Advertising", "expense", some "other_expense", true, true⟩,
  ⟨32, 0, some 28, "5440", "Travel & Conveyance", "expense", some "other_expense", true, true⟩]

/-- The store produced by seeding an empty store for the given org. -/
def firstSeedStore (org : Nat) : Store :=
  ⟨firstSeedTemplate.map (setOrgAccount org), [], [], [], 33⟩

/-- Rename the organization of every account of a store. -/
def mapStore (org : Nat) (st : Store) : Store :=
  { st with accounts := st.accounts.map (setOrgAccount org) }

/-- Boolean check that the parent reference of one catalog row resolves in an
account list: the account carrying the row code points at the account carrying
the parent code. -/
def parentOK (accts : List Account) (spec : DefaultSpec) : Bool :=
  match spec.parent_code with
  | none => true
  | some pc =>
    match accts.find? (fun a => a.code == spec.code),
        accts.find? (fun a => a.code == pc) with
    | some c, some p => c.parent_id == some p.id
    | _, _ => false

/-- One accounting-service call, for reasoning about call sequences. -/
inductive Op where
  | post (entry_date : SDate) (description : String) (lines : List LineSpec)
      (reference : Option String) (source : String) (source_id : Option Nat)
  | void (today : SDate) (entry_id : Nat)
  | lock (year : Nat) (locked_by : Option Nat)
deriving Repr

/-- Effect of one call on the store. -/
def applyOp (org : Nat) (st : Store) : Op → Except String Store
  | .post d desc ls ref src sid =>
    (post_journal_entry org d desc ls ref src sid st).map (·.2)
  | .void today eid => (void_entry org today eid st).map (·.2)
  | .lock y lb => (lock_financial_year org y lb st).map (·.2)

/-- Run a sequence of calls, stopping at the first failure; a run of
successful operations is a run that returns `.ok`. -/
def runOps (org : Nat) (ops : List Op) (st : Store) : Except String Store :=
  match ops with
  | [] => .ok st
  | op :: rest =>
    match applyOp org st op with
    | .error msg => .error msg
    | .ok st' => runOps org rest st'

/-- Every journal line of the store is balanced in aggregate: total debit
equals total credit over all stored lines. -/
def LinesBalanced (st : Store) : Prop :=
  ((st.lines.map (·.debit)).sum : ℤ) = (st.lines.map (·.credit)).sum

/-- Every stored journal line refers to an active account of the org. -/
def LinesAccounted (org : Nat) (st : Store) : Prop :=
  ∀ l ∈ st.lines, ∃ a ∈ st.accounts,
    (a.organization_id == org && a.is_active) = true ∧ a.id = l.account_id

/-- Account ids are unique in the store (primary-key property). -/
def AcctIdsNodup (st : Store) : Prop := (st.accounts.map (·.id)).Nodup

/-- The FinancialYear lookup for (org, year) returns a locked row. -/
def lockedRow (org year : Nat) (st : Store) : Prop :=
  ∃ fy, st.fyears.find? (fun r => r.organization_id == org && r.year == year)
    = some fy ∧ fy.is_locked = true

/-- Fixture: three dates of 2025 in increasing order. -/
def exDate1 : SDate := ⟨2025, 100⟩

/-- Fixture: a date after `exDate1`. -/
def exDate2 : SDate := ⟨2025, 200⟩

/-- Fixture: a date after `exDate2`. -/
def exDate3 : SDate := ⟨2025, 300⟩

/-- Fixture: an active accounts-receivable account of org 5. -/
def exAcctA : Account := ⟨1, 5, none, "1100", "AR", "asset", none, false, true⟩

/-- Fixture: an active revenue account of org 5. -/
def exAcctB : Account := ⟨2, 5, none, "4000", "Rev", "income", none, false, true⟩

/-- Fixture: a fresh store for org 5 with two active accounts and no entries. -/
def exStore0 : Store := ⟨[exAcctA, exAcctB], [], [], [], 10⟩

/-- Fixture: a balanced pair of line specs (Dr 1100 / Cr 4000, 100 units). -/
def exLines : List LineSpec := [⟨1, 100, 0, none⟩, ⟨2, 0, 100, none⟩]

/-- Fixture: post one balanced entry on `exDate1`. -/
def exOpsPost : List Op := [.post exDate1 "sale" exLines none "manual" none]

/-- Fixture: post one balanced entry, then void it on `exDate2`. -/
def exOpsPostVoid : List Op :=
  [.post exDate1 "sale" exLines none "manual" none, .void exDate2 10]

/-- Fixture: the entry header created by running `exOpsPost` on `exStore0`. -/
def exEntryP : JournalEntry :=
  ⟨10, 5, exDate1, none, "sale", "manual", none, "posted", 2025, none⟩

/-- Fixture: the store produced by running `exOpsPost` on `exStore0`. -/
def exStoreP : Store :=
  ⟨[exAcctA, exAcctB], [exEntryP],
    [⟨10, 1, 100, 0, none⟩, ⟨10, 2, 0, 100, none⟩], [], 11⟩

/-- Fixture: a store of org 7 whose only account is already inactive and not
a system account. -/
def exStoreInactive : Store :=
  ⟨[⟨1, 7, none, "9000", "Old", "asset", none, false, false⟩], [], [], [], 2⟩

end Ledger

namespace Ledger

/-- The lines stored for entry `eid` in store `st`. -/
def linesOfEntry (st : Store) (eid : Nat) : List JournalLine :=
  st.lines.filter fun l => l.entry_id == eid

lemma linesOfEntry_post (st : Store) (newLines : List JournalLine)
    (hfresh : ∀ l ∈ st.lines, l.entry_id ≠ st.nextId)
    (hnew : ∀ l ∈ newLines, l.entry_id = st.nextId)
    (ents : List JournalEntry) (fys : List FYearRow) (n : Nat) :
    linesOfEntry { accounts := st.accounts, entries := ents
                   lines := st.lines ++ newLines, fyears := fys
                   nextId := n } st.nextId = newLines := by
  unfold linesOfEntry
  simp only []
  rw [List.filter_append]
  rw [List.filter_eq_nil_iff.mpr fun l hl => by
    simp [beq_eq_false_iff_ne.mpr (hfresh l hl)]]
  rw [List.filter_eq_self.mpr fun l hl => by simp [hnew l hl]]
  simp

/-- Claim C1: when every line has exactly one strictly positive side, the
debit and credit totals agree and are positive, every referenced account is
an active account of the org, and the fiscal year of the entry date is not
locked, `post_journal_entry` succeeds and returns a posted entry whose fiscal
year is the year of the entry date and whose stored lines sum to the
submitted totals. -/
theorem claim_C1_post_balanced (org : Nat) (d : SDate) (desc : String)
    (lines : List LineSpec) (ref : Option String) (src : String)
    (sid : Option Nat) (st : Store)
    (hone : ∀ s ∈ lines, (0 < s.debit ∧ s.credit = 0) ∨ (0 < s.credit ∧ s.debit = 0))
    (hbal : (lines.map (·.debit)).sum = (lines.map (·.credit)).sum)
    (hpos : 0 < (lines.map (·.debit)).sum)
    (hacc : accountsValidB org lines st = true)
    (hlock : yearLockedB org d.year st = false)
    (hfresh : ∀ l ∈ st.lines, l.entry_id ≠ st.nextId) :
    ∃ e st', post_journal_entry org d desc lines ref src sid st = .ok (e, st') ∧
      e.status = "posted" ∧ e.fiscal_year = d.year ∧
      ((linesOfEntry st' e.id).map (·.debit)).sum = (lines.map (·.debit)).sum ∧
      ((linesOfEntry st' e.id).map (·.credit)).sum = (lines.map (·.credit)).sum := by
  unfold post_journal_entry
  rw [if_neg (by simp [hbal]), if_neg (by omega), if_neg (by simp [hlock]),
    if_neg (by simp [hacc])]
  refine ⟨_, _, rfl, rfl, rfl, ?_, ?_⟩ <;>
  · rw [linesOfEntry_post st _ hfresh (fun l hl => by
      rcases List.mem_map.mp hl with ⟨s, _, rfl⟩
      rfl)]
    rw [List.map_map]
    rfl

/-- Closed instance of claim C1 at a concrete balanced entry: both
hypotheses and conclusion are evaluated on `exStore0`. -/
theorem claim_C1_post_balanced_witness :
    ((∀ s ∈ exLines, (0 < s.debit ∧ s.credit = 0) ∨ (0 < s.credit ∧ s.debit = 0)) ∧
      accountsValidB 5 exLines exStore0 = true ∧
      yearLockedB 5 exDate1.year exStore0 = false) ∧
    (∃ e st', post_journal_entry 5 exDate1 "sale" exLines none "manual" none exStore0
        = .ok (e, st') ∧
      e.status = "posted" ∧ e.fiscal_year = exDate1.year ∧
      ((linesOfEntry st' e.id).map (·.debit)).sum = (exLines.map (·.debit)).sum ∧
      ((linesOfEntry st' e.id).map (·.credit)).sum = (exLines.map (·.credit)).sum) :=
  ⟨⟨by decide, by decide, by decide⟩,
    claim_C1_post_balanced 5 exDate1 "sale" exLines none "manual" none exStore0
      (by decide) (by decide) (by decide) (by decide) (by decide) (by decide)⟩

lemma voidStage1_eq (org : Nat) (today : SDate) (eid : Nat) (st : Store)
    (original : JournalEntry) (rspecs : List LineSpec)
    (h1 : st.entries.find? (fun e => e.id == eid && e.organization_id == org)
      = some original)
    (h2 : original.status = "posted")
    (h3 : mkReversalSpecs (st.lines.filter fun l => l.entry_id == original.id)
      = some rspecs) :
    voidStage1 org today eid st =
      match post_journal_entry org today ("REVERSAL: " ++ original.description)
          rspecs original.reference "void" (some original.id) st with
      | .error msg => .error msg
      | .ok (reversal, st1) => .ok (original, reversal, st1) := by
  unfold voidStage1
  split
  next heq => rw [h1] at heq; cases heq
  next o heq =>
    rw [h1] at heq
    injection heq with ho
    subst ho
    rw [if_neg (by simp [h2]), h3]

lemma mkReversalSpecs_eq (L : List JournalLine)
    (hwf : ∀ l ∈ L, ¬(0 < l.credit ∧ 0 < l.debit) ∧ ¬(l.credit = 0 ∧ l.debit = 0)) :
    mkReversalSpecs L = some (L.map fun l =>
      (⟨l.account_id, l.credit, l.debit,
        some ("Reversal of " ++ l.description.getD "entry")⟩ : LineSpec)) := by
  induction L with
  | nil => rfl
  | cons l ls ih =>
    have h := hwf l (List.mem_cons_self ..)
    have hrest := ih fun x hx => hwf x (List.mem_cons_of_mem _ hx)
    unfold mkReversalSpecs mkLineSpec
    rw [if_neg (by tauto)]
    simp only [Option.bind_eq_bind, Option.some_bind, hrest]
    rfl

/-- Claim C3: voiding a posted, balanced entry whose lines are well formed and
whose accounts are active accounts of the org, while the current year is open,
succeeds and returns a reversal entry R dated today (not on the original
entry date) with status "posted", source "void" and source id pointing at the
original; the stored lines of R are those of the original with debit and
credit swapped on the same accounts, and the original ends up voided with
`reversed_by` pointing at R. -/
theorem claim_C3_void_roundtrip (org : Nat) (today : SDate) (eid : Nat)
    (st : Store) (original : JournalEntry)
    (hfind : st.entries.find? (fun e => e.id == eid && e.organization_id == org)
      = some original)
    (hstat : original.status = "posted")
    (hwf : ∀ l ∈ linesOfEntry st original.id,
      ¬(0 < l.credit ∧ 0 < l.debit) ∧ ¬(l.credit = 0 ∧ l.debit = 0))
    (hbal : ((linesOfEntry st original.id).map (·.credit)).sum
      = ((linesOfEntry st original.id).map (·.debit)).sum)
    (hpos : 0 < ((linesOfEntry st original.id).map (·.credit)).sum)
    (hacc : ∀ l ∈ linesOfEntry st original.id, ∃ a ∈ st.accounts,
      a.id = l.account_id ∧ a.organization_id = org ∧ a.is_active = true)
    (hlock : yearLockedB org today.year st = false)
    (hlfresh : ∀ l ∈ st.lines, l.entry_id ≠ st.nextId) :
    ∃ R st', void_entry org today eid st = .ok (R, st') ∧
      R.status = "posted" ∧ R.source = "void" ∧ R.source_id = some original.id ∧
      R.entry_date = today ∧
      ((linesOfEntry st' R.id).map fun l => (l.account_id, l.debit, l.credit))
        = ((linesOfEntry st original.id).map fun l => (l.account_id, l.credit, l.debit)) ∧
      (∃ e' ∈ st'.entries, e'.id = original.id ∧ e'.status = "voided" ∧
        e'.reversed_by = some R.id) := by
  have horigmem : original ∈ st.entries := List.mem_of_find?_eq_some hfind
  set L := linesOfEntry st original.id with hL
  set rspecs := L.map (fun l =>
    (⟨l.account_id, l.credit, l.debit,
      some ("Reversal of " ++ l.description.getD "entry")⟩ : LineSpec)) with hrspecs
  have hstage : voidStage1 org today eid st =
      match post_journal_entry org today ("REVERSAL: " ++ original.description)
          rspecs original.reference "void" (some original.id) st with
      | .error msg => .error msg
      | .ok (reversal, st1) => .ok (original, reversal, st1) :=
    voidStage1_eq org today eid st original rspecs hfind hstat
      (mkReversalSpecs_eq L hwf)
  have hdr : ((rspecs.map (·.debit)).sum : ℤ) = (L.map (·.credit)).sum := by
    rw [hrspecs, List.map_map]; rfl
  have hcr : ((rspecs.map (·.credit)).sum : ℤ) = (L.map (·.debit)).sum := by
    rw [hrspecs, List.map_map]; rfl
  have haccB : accountsValidB org rspecs st = true := by
    unfold accountsValidB
    rw [List.all_eq_true]
    intro s hs
    rcases List.mem_map.mp hs with ⟨l, hl, rfl⟩
    rcases hacc l hl with ⟨a, hamem, haid, haorg, hact⟩
    exact List.any_eq_true.mpr ⟨a, hamem, by simp [haid, haorg, hact]⟩
  have hpost : post_journal_entry org today ("REVERSAL: " ++ original.description)
      rspecs original.reference "void" (some original.id) st =
      .ok ({ id := st.nextId, organization_id := org, entry_date := today
             reference := original.reference
             description := "REVERSAL: " ++ original.description
             source := "void", source_id := some original.id, status := "posted"
             fiscal_year := today.year, reversed_by := none },
        { st with
            entries := st.entries ++
              [{ id := st.nextId, organization_id := org, entry_date := today
                 reference := original.reference
                 description := "REVERSAL: " ++ original.description
                 source := "void", source_id := some original.id
                 status := "posted", fiscal_year := today.year
                 reversed_by := none }]
            lines := st.lines ++ rspecs.map (fun s =>
              { entry_id := st.nextId, account_id := s.account_id
                debit := s.debit, credit := s.credit
                description := s.description })
            nextId := st.nextId + 1 }) := by
    unfold post_journal_entry
    rw [if_neg (by rw [hdr, hcr]; simp [hbal]), if_neg (by rw [hdr]; omega),
      if_neg (by simp [hlock]), if_neg (by simp [haccB])]
  rw [hpost] at hstage
  unfold void_entry
  rw [hstage]
  refine ⟨_, _, rfl, rfl, rfl, rfl, rfl, ?_, ?_⟩
  · rw [linesOfEntry_post st _ hlfresh (fun l hl => by
      rcases List.mem_map.mp hl with ⟨s, _, rfl⟩
      rfl)]
    rw [hrspecs, List.map_map, List.map_map]
    rfl
  · refine ⟨{ original with status := "voided", reversed_by := some st.nextId },
      ?_, rfl, rfl, rfl⟩
    have hm : original ∈ st.entries ++
        [({ id := st.nextId, organization_id := org, entry_date := today
            reference := original.reference
            description := "REVERSAL: " ++ original.description
            source := "void", source_id := some original.id, status := "posted"
            fiscal_year := today.year, reversed_by := none } : JournalEntry)] :=
      List.mem_append_left _ horigmem
    have := List.mem_map_of_mem (fun e =>
      if e.id == original.id then
        ({ e with status := "voided", reversed_by := some st.nextId } : JournalEntry)
      else e) hm
    simpa using this

/-- Closed instance of claim C3: the posted fixture entry 10 is voided on
`exDate2` and all hypotheses are evaluated on the concrete store. -/
theorem claim_C3_void_roundtrip_witness :
    ∃ stP, runOps 5 exOpsPost exStore0 = .ok stP ∧
      ∃ R st', void_entry 5 exDate2 10 stP = .ok (R, st') ∧
        R.status = "posted" ∧ R.source = "void" ∧ R.source_id = some 10 ∧
        R.entry_date = exDate2 ∧
        ((linesOfEntry st' R.id).map fun l => (l.account_id, l.debit, l.credit))
          = ((linesOfEntry stP 10).map fun l => (l.account_id, l.credit, l.debit)) ∧
        (∃ e' ∈ st'.entries, e'.id = 10 ∧ e'.status = "voided" ∧
          e'.reversed_by = some R.id) := by
  refine ⟨exStoreP, rfl, ?_⟩
  exact claim_C3_void_roundtrip 5 exDate2 10 exStoreP exEntryP
    (by decide) (by decide) (by decide) (by decide) (by decide) (by decide)
    (by decide) (by decide)

lemma sum_map_add {α : Type} (l : List α) (f g : α → ℤ) :
    (l.map (fun a => f a + g a)).sum = (l.map f).sum + (l.map g).sum := by
  induction l with
  | nil => simp
  | cons a l ih => simp [ih]; ring

lemma filter_cons_map_sum {α : Type} (p : α → Bool) (f : α → ℤ) (x : α)
    (L : List α) :
    (((x :: L).filter p).map f).sum
      = (if p x then f x else 0) + ((L.filter p).map f).sum := by
  by_cases h : p x = true <;> simp [List.filter_cons, h]

lemma sum_single_hit (A : List Account) (P : Account → Bool) (x : Nat) (c : ℤ)
    (hnd : (A.map (·.id)).Nodup)
    (hex : ∃ a ∈ A, P a = true ∧ a.id = x) :
    ((A.filter P).map (fun a => if x == a.id then c else 0)).sum = c := by
  induction A with
  | nil => rcases hex with ⟨a, ha, _⟩; cases ha
  | cons a A' ih =>
    rw [List.map_cons] at hnd
    have hnd' := List.nodup_cons.mp hnd
    rcases hex with ⟨b, hb, hPb, hbx⟩
    rcases List.mem_cons.mp hb with rfl | hbA'
    · rw [List.filter_cons, if_pos hPb, List.map_cons, List.sum_cons,
        if_pos (show (x == b.id) = true from beq_iff_eq.mpr hbx.symm)]
      have hzero : ∀ y ∈ (A'.filter P).map (fun a' =>
          if x == a'.id then c else (0 : ℤ)), y = 0 := by
        intro y hy
        rcases List.mem_map.mp hy with ⟨a', ha', rfl⟩
        have ha'A : a' ∈ A' := List.mem_of_mem_filter ha'
        have hne : x ≠ a'.id := by
          intro hcontra
          exact hnd'.1 (by
            rw [hbx, hcontra]
            exact List.mem_map_of_mem _ ha'A)
        rw [if_neg (by simp only [beq_iff_eq]; exact hne)]
      rw [List.sum_eq_zero hzero, add_zero]
    · have hax : a.id ≠ x := by
        intro hcontra
        apply hnd'.1
        rw [hcontra, ← hbx]
        exact List.mem_map_of_mem _ hbA'
      rw [List.filter_cons]
      by_cases hPa : P a = true
      · rw [if_pos hPa, List.map_cons, List.sum_cons,
          if_neg (by simp only [beq_iff_eq]; exact fun hc => hax hc.symm),
          zero_add]
        exact ih hnd'.2 ⟨b, hbA', hPb, hbx⟩
      · rw [if_neg hPa]
        exact ih hnd'.2 ⟨b, hbA', hPb, hbx⟩

lemma sum_over_accounts (A : List Account) (P : Account → Bool)
    (L : List JournalLine) (f : JournalLine → ℤ)
    (hnd : (A.map (·.id)).Nodup)
    (hL : ∀ l ∈ L, ∃ a ∈ A, P a = true ∧ a.id = l.account_id) :
    ((A.filter P).map (fun a =>
      ((L.filter (fun l => l.account_id == a.id)).map f).sum)).sum
      = (L.map f).sum := by
  induction L with
  | nil => simp
  | cons l L' ih =>
    have hmap : (A.filter P).map (fun a =>
        (((l :: L').filter (fun x => x.account_id == a.id)).map f).sum)
        = (A.filter P).map (fun a =>
          (if l.account_id == a.id then f l else 0)
            + ((L'.filter (fun x => x.account_id == a.id)).map f).sum) :=
      List.map_congr_left fun a _ => filter_cons_map_sum ..
    rw [hmap, sum_map_add, ih (fun x hx => hL x (List.mem_cons_of_mem _ hx))]
    rcases hL l (List.mem_cons_self ..) with ⟨a, ha, hPa, haid⟩
    rw [sum_single_hit A P l.account_id (f l) hnd ⟨a, ha, hPa, haid⟩]
    simp

lemma trial_balance_totals (org : Nat) (asOf : SDate) (st : Store)
    (hacc : LinesAccounted org st) (hnd : AcctIdsNodup st) :
    (get_trial_balance org asOf st).grand_total_debit
      = (st.lines.map (·.debit)).sum ∧
    (get_trial_balance org asOf st).grand_total_credit
      = (st.lines.map (·.credit)).sum := by
  constructor
  · have h := sum_over_accounts st.accounts
      (fun a => a.organization_id == org && a.is_active) st.lines (·.debit)
      hnd hacc
    simpa only [get_trial_balance, tbJoinRows, List.map_map] using h
  · have h := sum_over_accounts st.accounts
      (fun a => a.organization_id == org && a.is_active) st.lines (·.credit)
      hnd hacc
    simpa only [get_trial_balance, tbJoinRows, List.map_map] using h

lemma tb_balanced_of_inv (org : Nat) (asOf : SDate) (st : Store)
    (h1 : LinesBalanced st) (h2 : LinesAccounted org st) (h3 : AcctIdsNodup st) :
    (get_trial_balance org asOf st).grand_total_debit
      = (get_trial_balance org asOf st).grand_total_credit ∧
    (get_trial_balance org asOf st).is_balanced = true := by
  obtain ⟨hd, hc⟩ := trial_balance_totals org asOf st h2 h3
  have heq : (get_trial_balance org asOf st).grand_total_debit
      = (get_trial_balance org asOf st).grand_total_credit := by
    rw [hd, hc]; exact h1
  refine ⟨heq, ?_⟩
  exact decide_eq_true heq

lemma post_ok_inv (org : Nat) (d : SDate) (desc : String) (ls : List LineSpec)
    (ref : Option String) (src : String) (sid : Option Nat) (st : Store)
    (e : JournalEntry) (st' : Store)
    (h : post_journal_entry org d desc ls ref src sid st = .ok (e, st')) :
    (st'.accounts = st.accounts ∧ st'.fyears = st.fyears) ∧
    (LinesBalanced st → LinesBalanced st') ∧
    (LinesAccounted org st → LinesAccounted org st') := by
  unfold post_journal_entry at h
  simp only [] at h
  split at h
  next hc1 => cases h
  next hc1 =>
    split at h
    next hc2 => cases h
    next hc2 =>
      split at h
      next hc3 => cases h
      next hc3 =>
        split at h
        next hc4 => cases h
        next hc4 =>
          injection h with h'
          injection h' with he hst
          subst he
          subst hst
          refine ⟨⟨rfl, rfl⟩, ?_, ?_⟩
          · intro hb
            have hbd : ((ls.map (fun s =>
                ({ entry_id := st.nextId, account_id := s.account_id
                   debit := s.debit, credit := s.credit
                   description := s.description } : JournalLine))).map
                  (·.debit)).sum = (ls.map (·.debit)).sum := by
              rw [List.map_map]; rfl
            have hbc : ((ls.map (fun s =>
                ({ entry_id := st.nextId, account_id := s.account_id
                   debit := s.debit, credit := s.credit
                   description := s.description } : JournalLine))).map
                  (·.credit)).sum = (ls.map (·.credit)).sum := by
              rw [List.map_map]; rfl
            have hbalnew : ((ls.map (·.debit)).sum : ℤ) = (ls.map (·.credit)).sum :=
              not_ne_iff.mp hc1
            unfold LinesBalanced at hb ⊢
            simp only [List.map_append, List.sum_append]
            rw [hb, hbd, hbc, hbalnew]
          · intro hA l hl
            simp only [List.mem_append] at hl
            rcases hl with hl | hl
            · exact hA l hl
            · rcases List.mem_map.mp hl with ⟨s, hs, rfl⟩
              have hvalid : accountsValidB org ls st = true := by
                rcases Bool.eq_false_or_eq_true (accountsValidB org ls st) with hv | hv
                · exact hv
                · exact absurd (by simp [hv]) hc4
              have hs' := List.all_eq_true.mp hvalid s hs
              rcases List.any_eq_true.mp hs' with ⟨a, ha, hcond⟩
              simp only [Bool.and_eq_true, beq_iff_eq] at hcond
              exact ⟨a, ha, by simp [hcond.1.2, hcond.2], hcond.1.1⟩

lemma void_ok_inv (org : Nat) (today : SDate) (eid : Nat) (st : Store)
    (R : JournalEntry) (st' : Store)
    (h : void_entry org today eid st = .ok (R, st')) :
    (st'.accounts = st.accounts ∧ st'.fyears = st.fyears) ∧
    (LinesBalanced st → LinesBalanced st') ∧
    (LinesAccounted org st → LinesAccounted org st') := by
  unfold void_entry at h
  split at h
  next heq => cases h
  next original reversal st1 heq =>
    injection h with h'
    injection h' with hR hst
    subst hR
    subst hst
    unfold voidStage1 at heq
    split at heq
    next => cases heq
    next o hfind =>
      split at heq
      next => cases heq
      next hstat =>
        split at heq
        next => cases heq
        next rspecs hmk =>
          split at heq
          next => cases heq
          next rev st1' hpost =>
            injection heq with h2
            injection h2 with ho h3
            injection h3 with hrev hst1
            subst ho
            subst hrev
            subst hst1
            obtain ⟨⟨hacc, hfy⟩, hbal, haccd⟩ := post_ok_inv _ _ _ _ _ _ _ _ _ _ hpost
            exact ⟨⟨hacc, hfy⟩, hbal, haccd⟩

lemma lock_ok_inv (org year : Nat) (lb : Option Nat) (st : Store)
    (fy : FYearRow) (st' : Store)
    (h : lock_financial_year org year lb st = .ok (fy, st')) :
    st'.accounts = st.accounts ∧ st'.lines = st.lines := by
  unfold lock_financial_year at h
  split at h
  next heq =>
    injection h with h'
    injection h' with hfy hst
    subst hst
    exact ⟨rfl, rfl⟩
  next fy0 heq =>
    split at h
    next => cases h
    next =>
      injection h with h'
      injection h' with hfy hst
      subst hst
      exact ⟨rfl, rfl⟩

lemma applyOp_ok_inv (org : Nat) (st st' : Store) (op : Op)
    (h : applyOp org st op = .ok st') :
    st'.accounts = st.accounts ∧
    (LinesBalanced st → LinesBalanced st') ∧
    (LinesAccounted org st → LinesAccounted org st') := by
  cases op with
  | post d desc ls ref src sid =>
    unfold applyOp at h
    simp only [] at h
    cases hp : post_journal_entry org d desc ls ref src sid st with
    | error msg =>
      rw [hp] at h
      have h' : (Except.error msg : Except String Store) = .ok st' := h
      cases h'
    | ok p =>
      rw [hp] at h
      have h' : (Except.ok p.2 : Except String Store) = .ok st' := h
      injection h' with h''
      subst h''
      obtain ⟨⟨ha, _⟩, hb, hc⟩ :=
        post_ok_inv org d desc ls ref src sid st p.1 p.2 (by rw [hp])
      exact ⟨ha, hb, hc⟩
  | void today eid =>
    unfold applyOp at h
    simp only [] at h
    cases hp : void_entry org today eid st with
    | error msg =>
      rw [hp] at h
      have h' : (Except.error msg : Except String Store) = .ok st' := h
      cases h'
    | ok p =>
      rw [hp] at h
      have h' : (Except.ok p.2 : Except String Store) = .ok st' := h
      injection h' with h''
      subst h''
      obtain ⟨⟨ha, _⟩, hb, hc⟩ := void_ok_inv org today eid st p.1 p.2 (by rw [hp])
      exact ⟨ha, hb, hc⟩
  | lock y lb =>
    unfold applyOp at h
    simp only [] at h
    cases hp : lock_financial_year org y lb st with
    | error msg =>
      rw [hp] at h
      have h' : (Except.error msg : Except String Store) = .ok st' := h
      cases h'
    | ok p =>
      rw [hp] at h
      have h' : (Except.ok p.2 : Except String Store) = .ok st' := h
      injection h' with h''
      subst h''
      obtain ⟨ha, hl⟩ := lock_ok_inv org y lb st p.1 p.2 (by rw [hp])
      refine ⟨ha, ?_, ?_⟩
      · intro hb
        unfold LinesBalanced at hb ⊢
        rw [hl]
        exact hb
      · intro hA l hlm
        rw [hl] at hlm
        obtain ⟨a, hav, hc, hid⟩ := hA l hlm
        exact ⟨a, by rw [ha]; exact hav, hc, hid⟩

lemma runOps_ok_inv (org : Nat) (ops : List Op) :
    ∀ (st0 st : Store), runOps org ops st0 = .ok st →
      st.accounts = st0.accounts ∧
      (LinesBalanced st0 → LinesBalanced st) ∧
      (LinesAccounted org st0 → LinesAccounted org st) := by
  induction ops with
  | nil =>
    intro st0 st h
    unfold runOps at h
    injection h with h'
    subst h'
    exact ⟨rfl, fun a => a, fun a => a⟩
  | cons op rest ih =>
    intro st0 st h
    unfold runOps at h
    split at h
    next => cases h
    next st1 hap =>
      obtain ⟨ha1, hb1, hc1⟩ := applyOp_ok_inv org st0 st1 op hap
      obtain ⟨ha2, hb2, hc2⟩ := ih st1 st h
      refine ⟨by rw [ha2, ha1], fun hb => hb2 (hb1 hb), fun hc => hc2 (hc1 hc)⟩

/-- Claim C4: starting from any store whose lines are balanced in aggregate,
refer only to active accounts of the org, and whose account ids are unique —
in particular from a fresh store with no journal lines — any successful
sequence of accounting-service calls leads to a store whose trial balance has
equal grand totals and reports `is_balanced = true`, for every as-of date. -/
theorem claim_C4_trial_balance_identity (org : Nat) (ops : List Op)
    (st0 st : Store) (asOf : SDate)
    (hbal : LinesBalanced st0) (hacc : LinesAccounted org st0)
    (hnd : AcctIdsNodup st0)
    (hrun : runOps org ops st0 = .ok st) :
    (get_trial_balance org asOf st).grand_total_debit
      = (get_trial_balance org asOf st).grand_total_credit ∧
    (get_trial_balance org asOf st).is_balanced = true := by
  obtain ⟨haccs, htb, hta⟩ := runOps_ok_inv org ops st0 st hrun
  refine tb_balanced_of_inv org asOf st (htb hbal) (hta hacc) ?_
  unfold AcctIdsNodup
  rw [haccs]
  exact hnd

/-- Closed instance of claim C4: the post-then-void sequence on the concrete
fixture store yields a balanced trial balance. -/
theorem claim_C4_trial_balance_identity_witness :
    (LinesBalanced exStore0 ∧ LinesAccounted 5 exStore0 ∧ AcctIdsNodup exStore0) ∧
    (∃ st, runOps 5 exOpsPostVoid exStore0 = .ok st ∧
      (get_trial_balance 5 exDate3 st).grand_total_debit
        = (get_trial_balance 5 exDate3 st).grand_total_credit ∧
      (get_trial_balance 5 exDate3 st).is_balanced = true) :=
  ⟨⟨by unfold LinesBalanced; decide, by unfold LinesAccounted; decide,
      by unfold AcctIdsNodup; decide⟩,
    ⟨_, rfl, claim_C4_trial_balance_identity 5 exOpsPostVoid exStore0 _ exDate3
      (by unfold LinesBalanced; decide) (by unfold LinesAccounted; decide)
      (by unfold AcctIdsNodup; decide) rfl⟩⟩

lemma find?_map_pred {α : Type} (l : List α) (g : α → α) (k : α → Bool)
    (hk : ∀ r, k (g r) = k r) :
    (l.map g).find? k = (l.find? k).map g := by
  induction l with
  | nil => rfl
  | cons a l ih =>
    rw [List.map_cons]
    by_cases h : k (g a) = true
    · rw [List.find?_cons_of_pos _ h,
        List.find?_cons_of_pos _ (by rw [← hk a]; exact h)]
      rfl
    · rw [List.find?_cons_of_neg _ h,
        List.find?_cons_of_neg _ (by rw [← hk a]; exact h)]
      exact ih

lemma lock_ok_locked (org year : Nat) (lb : Option Nat) (st : Store)
    (fy : FYearRow) (st' : Store)
    (h : lock_financial_year org year lb st = .ok (fy, st')) :
    lockedRow org year st' := by
  unfold lock_financial_year at h
  split at h
  next heq =>
    injection h with h'
    injection h' with hfy hst
    subst hst
    refine ⟨{ organization_id := org, year := year, is_locked := true
              locked_by := lb }, ?_, rfl⟩
    rw [List.find?_append, heq]
    simp
  next fy0 heq =>
    split at h
    next => cases h
    next hnl =>
      injection h with h'
      injection h' with hfy hst
      subst hst
      have hkey := List.find?_some heq
      refine ⟨{ fy0 with is_locked := true, locked_by := lb }, ?_, rfl⟩
      rw [find?_map_pred st.fyears
        (fun r => if r.organization_id == org && r.year == year then
          { r with is_locked := true, locked_by := lb } else r)
        (fun r => r.organization_id == org && r.year == year)
        (by
          intro r
          by_cases hr : (r.organization_id == org && r.year == year) = true <;>
            simp [hr]), heq]
      exact congrArg some (by simp [hkey])

lemma lock_preserves_locked (org year y' : Nat) (lb' : Option Nat)
    (st : Store) (fy' : FYearRow) (st' : Store)
    (h : lock_financial_year org y' lb' st = .ok (fy', st'))
    (hl : lockedRow org year st) : lockedRow org year st' := by
  obtain ⟨fy, hf, hlk⟩ := hl
  unfold lock_financial_year at h
  split at h
  next heq =>
    injection h with h'
    injection h' with hfy hst
    subst hst
    refine ⟨fy, ?_, hlk⟩
    rw [List.find?_append, hf]
    rfl
  next fy0 heq =>
    split at h
    next => cases h
    next hnl =>
      injection h with h'
      injection h' with hfy hst
      subst hst
      refine ⟨(fun r => if r.organization_id == org && r.year == y' then
          { r with is_locked := true, locked_by := lb' } else r) fy, ?_, ?_⟩
      · rw [find?_map_pred st.fyears
          (fun r => if r.organization_id == org && r.year == y' then
            { r with is_locked := true, locked_by := lb' } else r)
          (fun r => r.organization_id == org && r.year == year)
          (by
            intro r
            by_cases hr : (r.organization_id == org && r.year == y') = true <;>
              simp [hr]), hf]
        rfl
      · by_cases hr : (fy.organization_id == org && fy.year == y') = true <;>
          simp [hr, hlk]

lemma applyOp_preserves_locked (org year : Nat) (st st' : Store) (op : Op)
    (h : applyOp org st op = .ok st') (hl : lockedRow org year st) :
    lockedRow org year st' := by
  cases op with
  | post d desc ls ref src sid =>
    unfold applyOp at h
    simp only [] at h
    cases hp : post_journal_entry org d desc ls ref src sid st with
    | error msg =>
      rw [hp] at h
      have h' : (Except.error msg : Except String Store) = .ok st' := h
      cases h'
    | ok p =>
      rw [hp] at h
      have h' : (Except.ok p.2 : Except String Store) = .ok st' := h
      injection h' with h''
      subst h''
      obtain ⟨⟨_, hfy⟩, _, _⟩ :=
        post_ok_inv org d desc ls ref src sid st p.1 p.2 (by rw [hp])
      unfold lockedRow at hl ⊢
      rw [hfy]
      exact hl
  | void today eid =>
    unfold applyOp at h
    simp only [] at h
    cases hp : void_entry org today eid st with
    | error msg =>
      rw [hp] at h
      have h' : (Except.error msg : Except String Store) = .ok st' := h
      cases h'
    | ok p =>
      rw [hp] at h
      have h' : (Except.ok p.2 : Except String Store) = .ok st' := h
      injection h' with h''
      subst h''
      obtain ⟨⟨_, hfy⟩, _, _⟩ := void_ok_inv org today eid st p.1 p.2 (by rw [hp])
      unfold lockedRow at hl ⊢
      rw [hfy]
      exact hl
  | lock y' lb' =>
    unfold applyOp at h
    simp only [] at h
    cases hp : lock_financial_year org y' lb' st with
    | error msg =>
      rw [hp] at h
      have h' : (Except.error msg : Except String Store) = .ok st' := h
      cases h'
    | ok p =>
      rw [hp] at h
      have h' : (Except.ok p.2 : Except String Store) = .ok st' := h
      injection h' with h''
      subst h''
      exact lock_preserves_locked org year y' lb' st p.1 p.2 (by rw [hp]) hl

lemma runOps_preserves_locked (org year : Nat) (ops : List Op) :
    ∀ (st0 st : Store), runOps org ops st0 = .ok st →
      lockedRow org year st0 → lockedRow org year st := by
  induction ops with
  | nil =>
    intro st0 st h hl
    unfold runOps at h
    injection h with h'
    subst h'
    exact hl
  | cons op rest ih =>
    intro st0 st h hl
    unfold runOps at h
    split at h
    next => cases h
    next st1 hap =>
      exact ih st1 st h (applyOp_preserves_locked org year st0 st1 op hap hl)

lemma locked_yearLockedB (org year : Nat) (st : Store)
    (h : lockedRow org year st) : yearLockedB org year st = true := by
  obtain ⟨fy, hf, hlk⟩ := h
  have hkey := List.find?_some hf
  simp only [Bool.and_eq_true] at hkey
  refine List.any_eq_true.mpr ⟨fy, List.mem_of_find?_eq_some hf, ?_⟩
  simp only [Bool.and_eq_true]
  exact ⟨hkey, hlk⟩

lemma locked_post_error (org year : Nat) (st : Store) (d : SDate)
    (desc : String) (ls : List LineSpec) (ref : Option String) (src : String)
    (sid : Option Nat)
    (hlr : lockedRow org year st) (hyear : d.year = year)
    (hbal : (ls.map (·.debit)).sum = (ls.map (·.credit)).sum)
    (hnz : ((ls.map (·.debit)).sum : ℤ) ≠ 0) :
    post_journal_entry org d desc ls ref src sid st
      = .error "Financial year is locked. No new postings allowed." := by
  unfold post_journal_entry
  rw [if_neg (by simp [hbal]), if_neg (by simpa using hnz),
    if_pos (by rw [hyear]; exact locked_yearLockedB org year st hlr)]

lemma locked_post_never_ok (org year : Nat) (st : Store) (d : SDate)
    (desc : String) (ls : List LineSpec) (ref : Option String) (src : String)
    (sid : Option Nat) (e : JournalEntry) (st3 : Store)
    (hlr : lockedRow org year st) (hyear : d.year = year) :
    post_journal_entry org d desc ls ref src sid st ≠ .ok (e, st3) := by
  intro h
  unfold post_journal_entry at h
  simp only [] at h
  split at h
  next => cases h
  next =>
    split at h
    next => cases h
    next =>
      split at h
      next => cases h
      next hc3 =>
        rw [hyear] at hc3
        exact hc3 (locked_yearLockedB org year st hlr)

lemma locked_lock_error (org year : Nat) (lb : Option Nat) (st : Store)
    (hlr : lockedRow org year st) :
    lock_financial_year org year lb st
      = .error "Financial year is already locked" := by
  obtain ⟨fy, hf, hlk⟩ := hlr
  unfold lock_financial_year
  split
  next heq => rw [hf] at heq; cases heq
  next fy0 heq =>
    rw [hf] at heq
    injection heq with h
    subst h
    rw [if_pos hlk]

/-- Claim C6: once `lock_financial_year` has succeeded for (org, year), then
after any further successful sequence of accounting calls, every balanced
nonempty posting dated in that year fails with the PeriodLocked error, no
posting dated in that year can ever return successfully, and locking the same
(org, year) again fails with the AlreadyLocked error. -/
theorem claim_C6_lock_enforcement (org year : Nat) (lb : Option Nat)
    (st st1 st2 : Store) (fy : FYearRow) (ops : List Op)
    (hlock : lock_financial_year org year lb st = .ok (fy, st1))
    (hrun : runOps org ops st1 = .ok st2) :
    (∀ (d : SDate) (desc : String) (ls : List LineSpec) (ref : Option String)
        (src : String) (sid : Option Nat),
      d.year = year →
      (ls.map (·.debit)).sum = (ls.map (·.credit)).sum →
      ((ls.map (·.debit)).sum : ℤ) ≠ 0 →
      post_journal_entry org d desc ls ref src sid st2
        = .error "Financial year is locked. No new postings allowed.") ∧
    (∀ (d : SDate) (desc : String) (ls : List LineSpec) (ref : Option String)
        (src : String) (sid : Option Nat) (e : JournalEntry) (st3 : Store),
      d.year = year →
      post_journal_entry org d desc ls ref src sid st2 ≠ .ok (e, st3)) ∧
    (∀ lb2, lock_financial_year org year lb2 st2
      = .error "Financial year is already locked") := by
  have h1 : lockedRow org year st1 := lock_ok_locked org year lb st fy st1 hlock
  have h2 : lockedRow org year st2 :=
    runOps_preserves_locked org year ops st1 st2 hrun h1
  refine ⟨?_, ?_, ?_⟩
  · intro d desc ls ref src sid hy hb hnz
    exact locked_post_error org year st2 d desc ls ref src sid h2 hy hb hnz
  · intro d desc ls ref src sid e st3 hy
    exact locked_post_never_ok org year st2 d desc ls ref src sid e st3 h2 hy
  · intro lb2
    exact locked_lock_error org year lb2 st2 h2

/-- Closed instance of claim C6: locking 2025 for org 5 on the fixture store,
a balanced posting dated in 2025 fails with PeriodLocked and a second lock of
2025 fails with AlreadyLocked. -/
theorem claim_C6_lock_enforcement_witness :
    ∃ fy st1,
      lock_financial_year 5 2025 none exStore0 = .ok (fy, st1) ∧
      runOps 5 [] st1 = .ok st1 ∧
      post_journal_entry 5 exDate1 "sale" exLines none "manual" none st1
        = .error "Financial year is locked. No new postings allowed." ∧
      lock_financial_year 5 2025 none st1
        = .error "Financial year is already locked" := by
  refine ⟨_, _, rfl, rfl, ?_, ?_⟩
  · exact (claim_C6_lock_enforcement 5 2025 none exStore0 _ _ _ [] rfl rfl).1
      exDate1 "sale" exLines none "manual" none (by decide) (by decide) (by decide)
  · exact (claim_C6_lock_enforcement 5 2025 none exStore0 _ _ _ [] rfl rfl).2.2 none

lemma find?_congr2 {α : Type} (l : List α) (p q : α → Bool)
    (h : ∀ a ∈ l, p a = q a) : l.find? p = l.find? q := by
  induction l with
  | nil => rfl
  | cons a l ih =>
    have ha := h a (List.mem_cons_self ..)
    by_cases hp : p a = true
    · rw [List.find?_cons_of_pos _ hp, List.find?_cons_of_pos _ (ha ▸ hp)]
    · rw [List.find?_cons_of_neg _ hp,
        List.find?_cons_of_neg _ (by rw [← ha]; exact hp)]
      exact ih fun x hx => h x (List.mem_cons_of_mem _ hx)

lemma accounts_find_equiv (org : Nat) (l : List Account) (c : String)
    (h0 : ∀ a ∈ l, a.organization_id = 0) :
    (l.map (setOrgAccount org)).find?
        (fun a => a.organization_id == org && a.code == c)
      = (l.find? (fun a => a.organization_id == 0 && a.code == c)).map
          (setOrgAccount org) := by
  rw [List.find?_map]
  exact congrArg (Option.map (setOrgAccount org)) (find?_congr2 l _ _ fun a ha => by
    simp [Function.comp, setOrgAccount, h0 a ha])

lemma seedPass1_equiv (org : Nat) (existing : List String) (spec : DefaultSpec)
    (m : List (String × Nat)) (st : Store)
    (h0 : ∀ a ∈ st.accounts, a.organization_id = 0) :
    seedPass1 org existing (m, mapStore org st) spec
      = (seedPass1 0 existing (m, st) spec).map
          (fun p => (p.1, mapStore org p.2)) := by
  unfold seedPass1
  rcases hpc : spec.parent_code with _ | pc
  · simp only []
    cases hc : existing.contains spec.code with
    | false =>
      rw [if_pos (by rfl), if_pos (by rfl)]
      simp [Except.map, mapStore, setOrgAccount, List.map_append]
    | true =>
      rw [if_neg (by simp), if_neg (by simp)]
      rw [show (mapStore org st).accounts
        = st.accounts.map (setOrgAccount org) from rfl]
      rw [accounts_find_equiv org st.accounts spec.code h0]
      cases hb : st.accounts.find?
          (fun a => a.organization_id == 0 && a.code == spec.code) with
      | none => rfl
      | some a => rfl
  · rfl

lemma seedPass2_equiv (org : Nat) (existing : List String) (spec : DefaultSpec)
    (m : List (String × Nat)) (st : Store)
    (h0 : ∀ a ∈ st.accounts, a.organization_id = 0) :
    seedPass2 org existing (m, mapStore org st) spec
      = (seedPass2 0 existing (m, st) spec).map
          (fun p => (p.1, mapStore org p.2)) := by
  unfold seedPass2
  rcases hpc : spec.parent_code with _ | pc
  · rfl
  · simp only []
    cases hc : existing.contains spec.code with
    | false =>
      rw [if_pos (by rfl), if_pos (by rfl)]
      cases hm : m.find? (fun p => p.1 == pc) with
      | some q =>
        simp [Except.map, mapStore, setOrgAccount, List.map_append]
      | none =>
        rw [show (mapStore org st).accounts
          = st.accounts.map (setOrgAccount org) from rfl]
        rw [accounts_find_equiv org st.accounts pc h0]
        cases hb : st.accounts.find?
            (fun a => a.organization_id == 0 && a.code == pc) with
        | none =>
          simp [Except.map, mapStore, setOrgAccount, List.map_append]
        | some a =>
          simp [Except.map, mapStore, setOrgAccount, List.map_append]
    | true =>
      rw [if_neg (by simp), if_neg (by simp)]
      rw [show (mapStore org st).accounts
        = st.accounts.map (setOrgAccount org) from rfl]
      rw [accounts_find_equiv org st.accounts spec.code h0]
      cases hb : st.accounts.find?
          (fun a => a.organization_id == 0 && a.code == spec.code) with
      | none => rfl
      | some a => rfl

lemma seedPass1_keeps0 (existing : List String) (spec : DefaultSpec)
    (acc : List (String × Nat) × Store) (m' : List (String × Nat)) (st' : Store)
    (h : seedPass1 0 existing acc spec = .ok (m', st'))
    (h0 : ∀ a ∈ acc.2.accounts, a.organization_id = 0) :
    ∀ a ∈ st'.accounts, a.organization_id = 0 := by
  obtain ⟨m0, st0⟩ := acc
  unfold seedPass1 at h
  split at h
  · injection h with h'
    injection h' with hm hst
    subst hst
    exact h0
  · split at h
    · injection h with h'
      injection h' with hm hst
      subst hst
      intro a ha
      simp only [List.mem_append, List.mem_singleton] at ha
      rcases ha with ha | rfl
      · exact h0 a ha
      · rfl
    · split at h
      next a heq =>
        injection h with h'
        injection h' with hm hst
        subst hst
        exact h0
      next heq => cases h

lemma seedPass2_keeps0 (existing : List String) (spec : DefaultSpec)
    (acc : List (String × Nat) × Store) (m' : List (String × Nat)) (st' : Store)
    (h : seedPass2 0 existing acc spec = .ok (m', st'))
    (h0 : ∀ a ∈ acc.2.accounts, a.organization_id = 0) :
    ∀ a ∈ st'.accounts, a.organization_id = 0 := by
  obtain ⟨m0, st0⟩ := acc
  unfold seedPass2 at h
  split at h
  · injection h with h'
    injection h' with hm hst
    subst hst
    exact h0
  · split at h
    · injection h with h'
      injection h' with hm hst
      subst hst
      intro a ha
      simp only [List.mem_append, List.mem_singleton] at ha
      rcases ha with ha | rfl
      · exact h0 a ha
      · rfl
    · split at h
      next a heq =>
        injection h with h'
        injection h' with hm hst
        subst hst
        exact h0
      next heq => cases h

lemma pass1_fold_equiv (org : Nat) (existing : List String)
    (L : List DefaultSpec) :
    ∀ (m : List (String × Nat)) (st : Store),
      (∀ a ∈ st.accounts, a.organization_id = 0) →
      L.foldlM (seedPass1 org existing) (m, mapStore org st)
        = (L.foldlM (seedPass1 0 existing) (m, st)).map
            (fun p => (p.1, mapStore org p.2)) := by
  induction L with
  | nil => intro m st h0; rfl
  | cons spec L' ih =>
    intro m st h0
    rw [List.foldlM_cons, List.foldlM_cons,
      seedPass1_equiv org existing spec m st h0]
    cases hstep : seedPass1 0 existing (m, st) spec with
    | error msg => rfl
    | ok p =>
      obtain ⟨m1, st1⟩ := p
      exact ih m1 st1 (seedPass1_keeps0 existing spec (m, st) m1 st1 hstep h0)

lemma pass2_fold_equiv (org : Nat) (existing : List String)
    (L : List DefaultSpec) :
    ∀ (m : List (String × Nat)) (st : Store),
      (∀ a ∈ st.accounts, a.organization_id = 0) →
      L.foldlM (seedPass2 org existing) (m, mapStore org st)
        = (L.foldlM (seedPass2 0 existing) (m, st)).map
            (fun p => (p.1, mapStore org p.2)) := by
  induction L with
  | nil => intro m st h0; rfl
  | cons spec L' ih =>
    intro m st h0
    rw [List.foldlM_cons, List.foldlM_cons,
      seedPass2_equiv org existing spec m st h0]
    cases hstep : seedPass2 0 existing (m, st) spec with
    | error msg => rfl
    | ok p =>
      obtain ⟨m1, st1⟩ := p
      exact ih m1 st1 (seedPass2_keeps0 existing spec (m, st) m1 st1 hstep h0)

lemma pass1_fold_keeps0 (existing : List String) (L : List DefaultSpec) :
    ∀ (m : List (String × Nat)) (st : Store) (m' : List (String × Nat))
      (st' : Store),
      L.foldlM (seedPass1 0 existing) (m, st) = .ok (m', st') →
      (∀ a ∈ st.accounts, a.organization_id = 0) →
      ∀ a ∈ st'.accounts, a.organization_id = 0 := by
  induction L with
  | nil =>
    intro m st m' st' h h0
    have h' : (Except.ok (m, st) : Except String _) = .ok (m', st') := h
    injection h' with h''
    injection h'' with hm hst
    subst hst
    exact h0
  | cons spec L' ih =>
    intro m st m' st' h h0
    rw [List.foldlM_cons] at h
    cases hstep : seedPass1 0 existing (m, st) spec with
    | error msg =>
      rw [hstep] at h
      have h' : (Except.error msg : Except String _) = .ok (m', st') := h
      cases h'
    | ok p =>
      obtain ⟨m1, st1⟩ := p
      rw [hstep] at h
      have h' : L'.foldlM (seedPass1 0 existing) (m1, st1) = .ok (m', st') := h
      exact ih m1 st1 m' st' h'
        (seedPass1_keeps0 existing spec (m, st) m1 st1 hstep h0)

lemma pass2_fold_keeps0 (existing : List String) (L : List DefaultSpec) :
    ∀ (m : List (String × Nat)) (st : Store) (m' : List (String × Nat))
      (st' : Store),
      L.foldlM (seedPass2 0 existing) (m, st) = .ok (m', st') →
      (∀ a ∈ st.accounts, a.organization_id = 0) →
      ∀ a ∈ st'.accounts, a.organization_id = 0 := by
  induction L with
  | nil =>
    intro m st m' st' h h0
    have h' : (Except.ok (m, st) : Except String _) = .ok (m', st') := h
    injection h' with h''
    injection h'' with hm hst
    subst hst
    exact h0
  | cons spec L' ih =>
    intro m st m' st' h h0
    rw [List.foldlM_cons] at h
    cases hstep : seedPass2 0 existing (m, st) spec with
    | error msg =>
      rw [hstep] at h
      have h' : (Except.error msg : Except String _) = .ok (m', st') := h
      cases h'
    | ok p =>
      obtain ⟨m1, st1⟩ := p
      rw [hstep] at h
      have h' : L'.foldlM (seedPass2 0 existing) (m1, st1) = .ok (m', st') := h
      exact ih m1 st1 m' st' h'
        (seedPass2_keeps0 existing spec (m, st) m1 st1 hstep h0)

lemma seedRun_equiv (org : Nat) (existing : List String) (st : Store)
    (h0 : ∀ a ∈ st.accounts, a.organization_id = 0) :
    seedRun org existing (mapStore org st)
      = (seedRun 0 existing st).map (mapStore org) := by
  unfold seedRun
  cases hb1 : DEFAULT_ACCOUNTS.foldlM (seedPass1 0 existing) ([], st) with
  | error msg =>
    have h1 := pass1_fold_equiv org existing DEFAULT_ACCOUNTS [] st h0
    rw [hb1] at h1
    rw [h1]
    rfl
  | ok s1 =>
    obtain ⟨m1, st1⟩ := s1
    have h1 := pass1_fold_equiv org existing DEFAULT_ACCOUNTS [] st h0
    rw [hb1] at h1
    rw [h1]
    have h0' : ∀ a ∈ st1.accounts, a.organization_id = 0 :=
      pass1_fold_keeps0 existing DEFAULT_ACCOUNTS [] st m1 st1 hb1 h0
    show (DEFAULT_ACCOUNTS.foldlM (seedPass2 org existing)
        (m1, mapStore org st1)) >>= (fun s2 => pure s2.2)
      = ((DEFAULT_ACCOUNTS.foldlM (seedPass2 0 existing) (m1, st1)) >>=
          (fun s2 => pure s2.2)).map (mapStore org)
    rw [pass2_fold_equiv org existing DEFAULT_ACCOUNTS m1 st1 h0']
    cases hb2 : DEFAULT_ACCOUNTS.foldlM (seedPass2 0 existing) (m1, st1) with
    | error msg => rfl
    | ok s2 =>
      obtain ⟨m2, st2⟩ := s2
      rfl

lemma seed_equiv (org : Nat) (st : Store)
    (h0 : ∀ a ∈ st.accounts, a.organization_id = 0) :
    seed_default_accounts org (mapStore org st)
      = (seed_default_accounts 0 st).map (mapStore org) := by
  unfold seed_default_accounts
  have hex : (((mapStore org st).accounts.filter
        (fun a => a.organization_id == org)).map (·.code))
      = ((st.accounts.filter (fun a => a.organization_id == 0)).map (·.code)) := by
    rw [show (mapStore org st).accounts
      = st.accounts.map (setOrgAccount org) from rfl]
    rw [List.filter_map, List.map_map]
    rw [List.filter_eq_self.mpr (fun a _ => by
        simp [Function.comp, setOrgAccount]),
      List.filter_eq_self.mpr (fun a ha => by simp [h0 a ha])]
    rfl
  rw [hex]
  exact seedRun_equiv org _ st h0

lemma mapFirstSeed (org : Nat) :
    mapStore org (firstSeedStore 0) = firstSeedStore org := by
  unfold mapStore firstSeedStore
  simp only [List.map_map]
  rfl

/-- Claim C8: for every tenant, seeding an empty store once creates exactly
one account per default catalog code, a second call returns the store
unchanged, and the account of every child catalog row points, via
`parent_id`, at the account carrying its parent code. -/
theorem claim_C8_seed_idempotent (org : Nat) :
    ∃ st1, seed_default_accounts org emptyStore = .ok st1 ∧
      seed_default_accounts org st1 = .ok st1 ∧
      (∀ spec ∈ DEFAULT_ACCOUNTS,
        st1.accounts.countP (fun a =>
          a.organization_id == org && a.code == spec.code) = 1) ∧
      (∀ spec ∈ DEFAULT_ACCOUNTS, ∀ pc, spec.parent_code = some pc →
        ∃ c ∈ st1.accounts, c.code = spec.code ∧ c.organization_id = org ∧
          ∃ p ∈ st1.accounts, p.code = pc ∧ c.parent_id = some p.id) := by
  refine ⟨firstSeedStore org, ?_, ?_, ?_, ?_⟩
  · have h := seed_equiv org emptyStore (by intro a ha; cases ha)
    have hbase : seed_default_accounts 0 emptyStore = .ok (firstSeedStore 0) := rfl
    rw [hbase] at h
    have h' : seed_default_accounts org emptyStore
        = .ok (mapStore org (firstSeedStore 0)) := h
    rw [mapFirstSeed] at h'
    exact h'
  · have h := seed_equiv org (firstSeedStore 0) (by decide)
    have hbase : seed_default_accounts 0 (firstSeedStore 0)
        = .ok (firstSeedStore 0) := rfl
    rw [hbase] at h
    have h' : seed_default_accounts org (mapStore org (firstSeedStore 0))
        = .ok (mapStore org (firstSeedStore 0)) := h
    rw [mapFirstSeed] at h'
    exact h'
  · intro spec hspec
    have hall : DEFAULT_ACCOUNTS.all (fun spec =>
        firstSeedTemplate.countP (fun a => a.code == spec.code) == 1) = true := by
      decide
    have hc1 : firstSeedTemplate.countP (fun a => a.code == spec.code) = 1 :=
      beq_iff_eq.mp (List.all_eq_true.mp hall spec hspec)
    show (firstSeedTemplate.map (setOrgAccount org)).countP _ = 1
    rw [List.countP_map,
      List.countP_congr (q := fun a => a.code == spec.code) (fun a ha => by
        simp [Function.comp, setOrgAccount])]
    exact hc1
  · intro spec hspec pc hpc
    have hall : DEFAULT_ACCOUNTS.all (parentOK firstSeedTemplate) = true := by
      decide
    have hok := List.all_eq_true.mp hall spec hspec
    unfold parentOK at hok
    rw [hpc] at hok
    simp only [] at hok
    cases hcfind : firstSeedTemplate.find? (fun a => a.code == spec.code) with
    | none =>
      rw [hcfind] at hok
      exact absurd hok Bool.false_ne_true
    | some c =>
      rw [hcfind] at hok
      cases hpfind : firstSeedTemplate.find? (fun a => a.code == pc) with
      | none =>
        rw [hpfind] at hok
        exact absurd hok Bool.false_ne_true
      | some p =>
        rw [hpfind] at hok
        have hlink : c.parent_id = some p.id := beq_iff_eq.mp hok
        refine ⟨setOrgAccount org c,
          List.mem_map_of_mem _ (List.mem_of_find?_eq_some hcfind), ?_, rfl,
          setOrgAccount org p,
          List.mem_map_of_mem _ (List.mem_of_find?_eq_some hpfind), ?_, ?_⟩
        · have hraw := List.find?_some hcfind
          have hc2 : c.code = spec.code := beq_iff_eq.mp hraw
          exact hc2
        · have hraw := List.find?_some hpfind
          have hp2 : p.code = pc := beq_iff_eq.mp hraw
          exact hp2
        · exact hlink

/-- Claim C2 (code bug): in `get_trial_balance` the status, date and tenant
conditions sit in the ON clause of a LEFT OUTER JOIN, so the lines of a voided
entry still contribute to the per-account totals.  After posting Dr 100 / Cr
100 and voiding it, the code reports total debit 100 and total credit 100 for
account 1, while the specified totals (posted parent entries only) are debit 0
and credit 100. -/
theorem claim_C2_trial_balance_filters_leak :
    ∃ st, runOps 5 exOpsPostVoid exStore0 = .ok st ∧
      (get_trial_balance 5 exDate3 st).accounts.find? (fun r => r.account_id == 1)
        = some ⟨1, "1100", 100, 100, 0⟩ ∧
      trialBalanceSpecDebit 5 exDate3 st 1 = 0 ∧
      trialBalanceSpecCredit 5 exDate3 st 1 = 100 := by
  exact ⟨_, rfl, by decide, by decide, by decide⟩

/-- Claim C5 (code bug): after posting Dr 100 on account 1 / Cr 100 on account
2 and voiding the entry, the general-ledger closing balance of account 1 is
-100 (the voided entry is excluded, its reversal included) while the trial
balance reports net 0 for account 1 (the outer join keeps the voided lines),
so the claimed equality fails. -/
theorem claim_C5_gl_closing_vs_tb_net :
    ∃ st, runOps 5 exOpsPostVoid exStore0 = .ok st ∧
      (get_general_ledger 5 1 none none st).map (·.closing_balance) = .ok (-100) ∧
      ((get_trial_balance 5 exDate3 st).accounts.find? (fun r => r.account_id == 1)).map
        (·.net_balance) = some 0 ∧
      (-100 : ℤ) ≠ 0 := by
  exact ⟨_, rfl, rfl, rfl, by decide⟩

/-- Claim C7 (code bug): `void_entry` issues two commits — one inside the
nested `post_journal_entry` (source line 148) and one after marking the
original voided (source line 207).  The store committed by the first commit
(`voidStage1`) contains the posted reversal while the original entry is still
in status "posted", so the two steps are not atomic. -/
theorem claim_C7_void_two_commits :
    ∃ stP original reversal st1,
      runOps 5 exOpsPost exStore0 = .ok stP ∧
      voidStage1 5 exDate2 10 stP = .ok (original, reversal, st1) ∧
      reversal ∈ st1.entries ∧ reversal.status = "posted" ∧
      reversal.source = "void" ∧ reversal.source_id = some 10 ∧
      st1.entries.find? (fun e => e.id == 10) = some original ∧
      original.status = "posted" ∧
      void_entry 5 exDate2 10 stP =
        .ok (reversal, { st1 with entries := st1.entries.map fun e =>
          if e.id == original.id then
            { e with status := "voided", reversed_by := some reversal.id }
          else e }) := by
  refine ⟨_, _, _, _, rfl, rfl, ?_, ?_, ?_, ?_, ?_, ?_, ?_⟩
  · decide
  · rfl
  · rfl
  · rfl
  · rfl
  · rfl
  · rfl

/-- Claim C9 (code bug): the `LineSpec` constructor only rejects pairs that
are both strictly positive or both exactly zero, so it accepts a pair where
neither side is positive (debit -1, credit 0) and a pair whose positive side
is accompanied by a nonzero negative side (debit 5, credit -3) — although its
own error message demands that exactly one of debit and credit be positive. -/
theorem claim_C9_linespec_accepts_negative :
    (mkLineSpec 1 (-1) 0 none).isSome = true ∧
    ¬(0 < (-1 : ℤ)) ∧ ¬(0 < (0 : ℤ)) ∧
    (mkLineSpec 2 5 (-3) none).isSome = true ∧ ((-3 : ℤ) ≠ 0) := by
  decide

/-- Claim C10 counterexample: the only account of `exStoreInactive` is
inactive and not a system account, yet `deactivate_account` succeeds — the
source never checks `is_active`, contradicting the claim that deactivating an
already inactive account fails. -/
theorem claim_C10_inactive_deactivate_succeeds :
    ((exStoreInactive.accounts.find? (fun a => a.id == 1)).map
      (fun a => (a.is_system, a.is_active))) = some (false, false) ∧
    (deactivate_account 7 1 exStoreInactive).isOk = true := by
  decide

/-- Claim C10 (amended): `deactivate_account` fails when the account is
missing, belongs to another tenant, or is a system account; otherwise — even
when the account is already inactive — it clears the active flag and keeps
the row in the store. -/
theorem claim_C10_deactivate_amended (org aid : Nat) (st : Store) :
    (st.accounts.find? (fun a => a.id == aid) = none →
      deactivate_account org aid st = .error "Account not found") ∧
    (∀ acct, st.accounts.find? (fun a => a.id == aid) = some acct →
      acct.organization_id ≠ org →
      deactivate_account org aid st = .error "Account not found") ∧
    (∀ acct, st.accounts.find? (fun a => a.id == aid) = some acct →
      acct.organization_id = org → acct.is_system = true →
      deactivate_account org aid st = .error "System accounts cannot be deactivated") ∧
    (∀ acct, st.accounts.find? (fun a => a.id == aid) = some acct →
      acct.organization_id = org → acct.is_system = false →
      deactivate_account org aid st = .ok ({ acct with is_active := false },
        { st with accounts := st.accounts.map fun a =>
            if a.id == aid then { a with is_active := false } else a }) ∧
      { acct with is_active := false } ∈ (st.accounts.map fun a =>
        if a.id == aid then { a with is_active := false } else a)) := by
  refine ⟨?_, ?_, ?_, ?_⟩
  · intro h
    simp [deactivate_account, h]
  · intro acct h hne
    simp [deactivate_account, h, hne]
  · intro acct h horg hsys
    simp [deactivate_account, h, horg, hsys]
  · intro acct h horg hsys
    have hmem : acct ∈ st.accounts := List.mem_of_find?_eq_some h
    have hid : acct.id = aid := by
      have := List.find?_some h
      simpa using this
    constructor
    · simp [deactivate_account, h, horg, hsys]
    · have : (if acct.id == aid then { acct with is_active := false } else acct)
          ∈ (st.accounts.map fun a =>
            if a.id == aid then { a with is_active := false } else a) :=
        List.mem_map_of_mem _ hmem
      simpa [hid] using this

/-- Closed instance of the amended C10: in a concrete store the success branch
applies to the already inactive account 1 of org 7. -/
theorem claim_C10_deactivate_amended_witness :
    (deactivate_account 7 1 exStoreInactive).isOk = true := by
  have h := (claim_C10_deactivate_amended 7 1 exStoreInactive).2.2.2
    ⟨1, 7, none, "9000", "Old", "asset", none, false, false⟩ (by decide) (by decide) (by decide)
  rw [h.1]
  rfl

end Ledger

